import Mathlib

/-!
Shallow embedding of the preview subsystem of the filemanager backend
(`preview.go`, the icon route wiring in `server.go`, and the metadata
poll loop shared with `getMetaInfo`).  Strings model Go strings
(ASCII-ranged in all concrete inputs), byte contents are `List Nat`,
and the on-disk cache is an explicit association-list state threaded
through the handler.
-/

/-- Model of the on-disk state touched by the preview subsystem:
regular files (path to byte contents) and created directories. -/
structure FsState where
  files : List (String × List Nat)
  dirs : List String
deriving DecidableEq, Repr

/-- Model of `os.Stat` as used by the code: only the size (and existence) of a
file is ever consulted. -/
def FsState.stat (fs : FsState) (p : String) : Option Nat :=
  (fs.files.lookup p).map List.length

/-- Model of `os.WriteFile` / persisted artifact write: truncating overwrite. -/
def FsState.write (fs : FsState) (p : String) (b : List Nat) : FsState :=
  { fs with files := (p, b) :: fs.files }

/-- Model of `os.Mkdir` with its error ignored: records the directory, no-op if
it already exists. -/
def FsState.mkdir (fs : FsState) (d : String) : FsState :=
  if fs.dirs.contains d then fs else { fs with dirs := d :: fs.dirs }

/-- Model of `wfs.File` restricted to the fields the preview code reads. -/
structure WFile where
  name : String
  size : Int
  type : String
deriving DecidableEq, Repr

/-- Splitting a character list on `/` (the semantics of
`String.splitOn "/"`), written to reduce in the kernel. -/
def splitSlashAux : List Char → List Char → List String
  | cur, [] => [String.mk cur.reverse]
  | cur, c :: rest =>
    if c = '/' then String.mk cur.reverse :: splitSlashAux [] rest
    else splitSlashAux (c :: cur) rest

/-- Split a string on `/`. -/
def splitSlash (s : String) : List String :=
  splitSlashAux [] s.data

/-- Whether a path is rooted (starts with `/`). -/
def isRooted (s : String) : Bool :=
  match s.data with
  | '/' :: _ => true
  | _ => false

/-- Join segments with `/` (the semantics of `String.intercalate "/"`). -/
def joinSlash : List String → String
  | [] => ""
  | [x] => x
  | x :: rest => x ++ "/" ++ joinSlash rest

/-- Segment-wise core of Go `path/filepath.Clean`: drops empty and `.`
segments, resolves `..` against a preceding segment, keeps leading
`..` when the path is relative.  The accumulator is reversed. -/
def cleanCore (rooted : Bool) : List String → List String → List String
  | acc, [] => acc.reverse
  | acc, seg :: rest =>
    if seg = "" ∨ seg = "." then cleanCore rooted acc rest
    else if seg = ".." then
      match acc with
      | [] => if rooted then cleanCore rooted [] rest else cleanCore rooted [".."] rest
      | h :: t =>
        if h = ".." then cleanCore rooted (".." :: h :: t) rest else cleanCore rooted t rest
    else cleanCore rooted (seg :: acc) rest

/-- Go `filepath.Clean` (unix separators). -/
def goClean (s : String) : String :=
  let rooted := isRooted s
  let segs := cleanCore rooted [] (splitSlash s)
  if rooted then "/" ++ joinSlash segs
  else if segs = [] then "." else joinSlash segs

/-- Go `filepath.Join`: joins the non-empty elements with `/` and
cleans the result; all-empty input yields the empty string. -/
def goJoin (elems : List String) : String :=
  let ne := elems.filter (fun e => e ≠ "")
  match ne with
  | [] => ""
  | _ => goClean (joinSlash ne)

/-- Go `filepath.Base`. -/
def goBase (s : String) : String :=
  if s = "" then "."
  else
    let l := s.data.reverse.dropWhile (fun c => c = '/')
    if l = [] then "/"
    else String.mk (l.takeWhile (fun c => c ≠ '/')).reverse

/-- Go `filepath.Ext`: the suffix of the final path element starting
at its last dot, empty when that element has no dot. -/
def goExt (s : String) : String :=
  let seg := s.data.reverse.takeWhile (fun c => c ≠ '/')
  if seg.contains '.' then String.mk (seg.takeWhile (fun c => c ≠ '.') ++ ['.']).reverse
  else ""

/-- The character class kept by `getIconURL`'s regexp replacement of
`[^A-Za-z0-9.]` with the empty string. -/
def iconAllowed (c : Char) : Bool :=
  ('A' ≤ c && c ≤ 'Z') || ('a' ≤ c && c ≤ 'z') || ('0' ≤ c && c ≤ '9') || c = '.'

/-- The sanitization performed by `getIconURL`: strip every character
outside `[A-Za-z0-9.]`. -/
def sanitizeIcon (s : String) : String :=
  String.mk (s.data.filter iconAllowed)

/-- Embedding of `getIconURL` from preview.go: sanitize the name, probe
`icons/<size>/<name>`, fall back to `icons/<size>/file.svg`. -/
def getIconURL (name size : String) (fs : FsState) : String :=
  let n := sanitizeIcon name
  let test := "icons/" ++ size ++ "/" ++ n
  if (fs.stat test).isSome then test else "icons/" ++ size ++ "/file.svg"

/-- Embedding of `serveIconPreview` from preview.go.  `none` models the run-time
panic of `filepath.Ext(info.Name)[1:]` when the extension is empty;
otherwise the served icon path. -/
def serveIconPreview (fs : FsState) (info : Option WFile) : Option String :=
  match info with
  | none => some (getIconURL ("unavailable" ++ ".svg") "big" fs)
  | some f =>
    let e := goExt f.name
    if e = "" then none
    else some (getIconURL (e.drop 1 ++ ".svg") "big" fs)

/-- Relative-path segment normalization used to state that a returned
icon path escapes the `icons` directory. -/
def normSegs (s : String) : List String :=
  cleanCore (isRooted s) [] (splitSlash s)

/-- Accumulated numeric value of a digit list. -/
def digitsVal (l : List Char) : Nat :=
  l.foldl (fun a c => a * 10 + (c.toNat - 48)) 0

/-- Go `strconv.Atoi` on a 64-bit platform: optional sign, at least
one digit, nothing else, and the value must fit in int64 (out-of-range
input returns an error, hence `none`). -/
def atoi (s : String) : Option Int :=
  let core : Int → List Char → Option Int := fun sgn ds =>
    if ds = [] then none
    else if ds.all Char.isDigit then
      let v : Int := sgn * (digitsVal ds : Nat)
      if v < -(2 ^ 63) ∨ v > 2 ^ 63 - 1 then none else some v
    else none
  match s.data with
  | '+' :: r => core 1 r
  | '-' :: r => core (-1) r
  | r => core 1 r

/-- The parsed width: `strconv.Atoi(widthStr)`, defaulting to 214 on
any parse error. -/
def widthOf (s : String) : Int :=
  (atoi s).getD 214

/-- The parsed height: `strconv.Atoi(heightStr)`, defaulting to 163 on
any parse error. -/
def heightOf (s : String) : Int :=
  (atoi s).getD 163

/-- The configuration fields the preview subsystem reads. -/
structure AppConfig where
  root : String
  preview : String
deriving DecidableEq, Repr

/-- The cost ceiling of the orchestrator:
`info.Size > 50*1000*1000 || width > 2000 || height > 2000`. -/
def overLimit (info : WFile) (w h : Int) : Bool :=
  info.size > 50 * 1000 * 1000 || w > 2000 || h > 2000

/-- The cache-path computation of `getFilePreview`:
`source := Join(root, id)`, `name := Base(source)`,
`folder := Join(root, id[:len(id)-len(name)], ".preview")`,
`preview := Join(folder, name+"___"+widthStr+"x"+heightStr)`.
`none` models the slice panic of `id[:len(id)-len(name)]` when
`len(name) > len(id)`. -/
def previewPaths (cfg : AppConfig) (id wStr hStr : String) : Option (String × String) :=
  let source := goJoin [cfg.root, id]
  let name := goBase source
  if name.length ≤ id.length then
    let folder := goJoin [cfg.root, id.take (id.length - name.length), ".preview"]
    let prevP := goJoin [folder, name ++ "___" ++ wStr ++ "x" ++ hStr]
    some (folder, prevP)
  else none

/-- The cache probe of `getFilePreview`: stat `<preview>.jpg` first,
then `<preview>.png`; report the extension found and its size. -/
def probe (fs : FsState) (prevP : String) : Option (String × Nat) :=
  match fs.stat (prevP ++ ".jpg") with
  | some n => some (".jpg", n)
  | none =>
    match fs.stat (prevP ++ ".png") with
    | some n => some (".png", n)
    | none => none

/-- Abstract outcomes of the two generators a request may dispatch to:
the external proxy (`getExternalPreview`, yielding an extension and
the persisted bytes) and the local thumbnailer (`getImagePreview`,
always writing `.jpg`). -/
structure GenSpec where
  ext : Except String (String × List Nat)
  img : Except String (List Nat)

/-- The response observable on the preview route: either
`format.Text(w, 500, ...)` or `http.ServeFile` of a path. -/
inductive PResp where
  | errorText (code : Nat) (msg : String)
  | serveFile (path : String)
deriving DecidableEq, Repr

/-- Which generator a run invoked. -/
inductive GenKind where
  | external
  | localImage
deriving DecidableEq, Repr

/-- Full observable outcome of one `getFilePreview` run: the response
(`none` = panic), the final cache state, and the generator invoked. -/
structure POut where
  resp : Option PResp
  fs : FsState
  invoked : Option GenKind
deriving DecidableEq, Repr

/-- The generation-phase tail of `getFilePreview` (after the cache
miss): `os.Mkdir(folder)`, dispatch on configuration and file kind,
then either serve the fresh artifact or write the zero-byte `.jpg`
placeholder and fall back to the icon. -/
def generatePhase (cfg : AppConfig) (gen : GenSpec) (info : WFile)
    (folder prevP : String) (fs : FsState) : POut :=
  let fs1 := fs.mkdir folder
  if cfg.preview ≠ "" then
    match gen.ext with
    | .ok (ext, bytes) =>
      ⟨some (.serveFile (prevP ++ ext)), fs1.write (prevP ++ ext) bytes, some .external⟩
    | .error _ =>
      let fs2 := fs1.write (prevP ++ ".jpg") []
      ⟨(serveIconPreview fs2 (some info)).map .serveFile, fs2, some .external⟩
  else if info.type = "image" then
    match gen.img with
    | .ok bytes =>
      ⟨some (.serveFile (prevP ++ ".jpg")), fs1.write (prevP ++ ".jpg") bytes, some .localImage⟩
    | .error _ =>
      let fs2 := fs1.write (prevP ++ ".jpg") []
      ⟨(serveIconPreview fs2 (some info)).map .serveFile, fs2, some .localImage⟩
  else
    let fs2 := fs1.write (prevP ++ ".jpg") []
    ⟨(serveIconPreview fs2 (some info)).map .serveFile, fs2, none⟩

/-- Embedding of `getFilePreview` from preview.go.  `infoRes` abstracts the result
of the metadata poll loop (`drive.Info` with retry), `gen` abstracts
the generators' behavior for this request. -/
def getFilePreview (cfg : AppConfig) (gen : GenSpec) (infoRes : Except String WFile)
    (id wStr hStr : String) (fs : FsState) : POut :=
  if cfg.preview = "none" then
    ⟨some (.errorText 500 "Previews not configured"), fs, none⟩
  else
    match infoRes with
    | .error _ => ⟨(serveIconPreview fs none).map .serveFile, fs, none⟩
    | .ok info =>
      if overLimit info (widthOf wStr) (heightOf hStr) then
        ⟨(serveIconPreview fs (some info)).map .serveFile, fs, none⟩
      else
        match previewPaths cfg id wStr hStr with
        | none => ⟨none, fs, none⟩
        | some (folder, prevP) =>
          match probe fs prevP with
          | some (ext, n) =>
            if n = 0 then ⟨(serveIconPreview fs (some info)).map .serveFile, fs, none⟩
            else ⟨some (.serveFile (prevP ++ ext)), fs, none⟩
          | none => generatePhase cfg gen info folder prevP fs

/-- The generator `getFilePreview` would dispatch to on a cache miss,
with its outcome normalized to (extension, bytes): `some gen.ext` when
an external service is configured, the local `.jpg` outcome for image
kinds, and `none` when no generator applies. -/
def genOutcome (cfg : AppConfig) (info : WFile) (gen : GenSpec) :
    Option (Except String (String × List Nat)) :=
  if cfg.preview ≠ "" then some gen.ext
  else if info.type = "image" then some (gen.img.map (fun b => (".jpg", b)))
  else none

/-- The remote response consumed by `getExternalPreview`. -/
structure HttpResp where
  status : Nat
  contentType : String
  body : List Nat
deriving DecidableEq, Repr

/-- Embedding of `getExternalPreview` from preview.go.  `callRes` abstracts
request construction plus `client.Do` (both return the error with no
disk effect), `createOk` whether `os.Create` succeeds, `copyFail`
whether `io.Copy` fails (carrying the bytes it wrote before the
failure). -/
def getExternalPreview (callRes : Except String HttpResp) (createOk : Bool)
    (copyFail : Option (List Nat)) (prevP : String) (fs : FsState) :
    Except String String × FsState :=
  match callRes with
  | .error e => (.error ("preview service " ++ e), fs)
  | .ok res =>
    if res.status ≠ 200 then (.error "preview service status", fs)
    else
      let ext := if res.contentType = "image/png" then ".png" else ".jpg"
      if createOk then
        match copyFail with
        | some leftover => (.error "copy failed", fs.write (prevP ++ ext) leftover)
        | none => (.ok ext, fs.write (prevP ++ ext) res.body)
      else (.error "create failed", fs)

deriving instance DecidableEq for Except

/-- Boolean error test on `Except`. -/
def exIsError : Except String WFile → Bool
  | .error _ => true
  | .ok _ => false

/-- The metadata poll loop of `getFilePreview` and `getMetaInfo`:
call `drive.Info` (modelled as `results k` for the k-th attempt, the
filesystem state passed through untouched), break on success or once
`time.Now()` is after the deadline, otherwise sleep 100 ms and retry.
Attempt k happens at time `now`; the sleep advances `now` by 100. -/
def pollLoop (results : Nat → Except String WFile) (deadline : Nat) :
    Nat → Nat → FsState → Except String WFile × FsState
  | now, k, fs =>
    match results k with
    | .ok m => (.ok m, fs)
    | .error e =>
      if h : now > deadline then (.error e, fs)
      else pollLoop results deadline (now + 100) (k + 1) fs
termination_by now _ _ => deadline + 1 - now
decreasing_by simp at h; omega

/-- The whole poll: deadline is `start + 10 s`, attempts 100 ms apart
starting at `t0`. -/
def resolveInfo (results : Nat → Except String WFile) (t0 : Nat) (fs : FsState) :
    Except String WFile × FsState :=
  pollLoop results (t0 + 10000) t0 0 fs

/-- Reference recursion for the poll loop: first success at attempt
index ≥ k, exiting with the failure of attempt 101 (the first attempt
whose timestamp `t0 + 100*k` is past the `t0 + 10000` deadline). -/
def specFrom (results : Nat → Except String WFile) : Nat → Except String WFile
  | k =>
    match results k with
    | .ok m => .ok m
    | .error e => if k ≥ 101 then .error e else specFrom results (k + 1)
termination_by k => 102 - k
decreasing_by simp at *; omega

theorem getIconURL_shape (name size : String) (fs : FsState) :
    getIconURL name size fs = "icons/" ++ size ++ "/" ++ sanitizeIcon name ∨
      getIconURL name size fs = "icons/" ++ size ++ "/file.svg" := by
  simp only [getIconURL]
  split
  · exact Or.inl rfl
  · exact Or.inr rfl

theorem getIconURL_absent (name size : String) (fs : FsState)
    (h : fs.stat ("icons/" ++ size ++ "/" ++ sanitizeIcon name) = none) :
    getIconURL name size fs = "icons/" ++ size ++ "/file.svg" := by
  simp [getIconURL, h]

theorem sanitizeIcon_allowed (name : String) :
    ∀ c ∈ (sanitizeIcon name).data, iconAllowed c = true := by
  intro c hc
  have := List.of_mem_filter (p := iconAllowed) hc
  exact this

theorem sanitizeIcon_no_slash (name : String) : '/' ∉ (sanitizeIcon name).data := by
  intro h
  have := sanitizeIcon_allowed name _ h
  simp [iconAllowed] at this

theorem goExt_eq_empty (s : String) (h : '.' ∉ s.data) : goExt s = "" := by
  simp only [goExt]
  split
  case isTrue hct =>
    exact absurd (List.mem_reverse.mp
      ((List.takeWhile_sublist _).mem (List.elem_iff.mp hct))) h
  case isFalse => rfl

theorem dot_mem_of_goExt_ne (s : String) (h : goExt s ≠ "") : '.' ∈ s.data := by
  by_contra hd
  exact h (goExt_eq_empty s hd)

theorem stat_write_self (fs : FsState) (p : String) (b : List Nat) :
    (fs.write p b).stat p = some b.length := by
  simp [FsState.write, FsState.stat, List.lookup]

theorem stat_write_other (fs : FsState) (p q : String) (b : List Nat) (h : q ≠ p) :
    (fs.write p b).stat q = fs.stat q := by
  simp only [FsState.write, FsState.stat, List.lookup]
  rw [show (q == p) = false from beq_eq_false_iff_ne.mpr h]

theorem stat_mkdir (fs : FsState) (d p : String) :
    (fs.mkdir d).stat p = fs.stat p := by
  simp only [FsState.mkdir]
  split <;> rfl

theorem string_append_right_ne (a b c : String) (h : b ≠ c) : a ++ b ≠ a ++ c := by
  intro he
  apply h
  have hd := congrArg String.data he
  rw [String.data_append, String.data_append] at hd
  exact String.ext (List.append_cancel_left hd)

theorem probe_none_stats (fs : FsState) (prevP : String) (h : probe fs prevP = none) :
    fs.stat (prevP ++ ".jpg") = none ∧ fs.stat (prevP ++ ".png") = none := by
  unfold probe at h
  rcases h1 : fs.stat (prevP ++ ".jpg") with _ | n
  · rcases h2 : fs.stat (prevP ++ ".png") with _ | n
    · exact ⟨rfl, rfl⟩
    · rw [h1, h2] at h
      simp at h
  · rw [h1] at h
    simp at h

theorem generatePhase_resp_shape (cfg : AppConfig) (gen : GenSpec) (info : WFile)
    (folder prevP : String) (fs : FsState) (c : Nat) (m : String) :
    (generatePhase cfg gen info folder prevP fs).resp ≠ some (.errorText c m) := by
  unfold generatePhase
  repeat' split
  all_goals simp [Option.map_eq_some']

theorem getFilePreview_resp_shape (cfg : AppConfig) (gen : GenSpec)
    (infoRes : Except String WFile) (id wStr hStr : String) (fs : FsState)
    (hp : cfg.preview ≠ "none") (c : Nat) (m : String) :
    (getFilePreview cfg gen infoRes id wStr hStr fs).resp ≠ some (.errorText c m) := by
  unfold getFilePreview
  rw [if_neg hp]
  repeat' split
  all_goals first
    | apply generatePhase_resp_shape
    | simp [Option.map_eq_some']

theorem getFilePreview_err_eq (cfg : AppConfig) (gen : GenSpec) (e : String)
    (id wStr hStr : String) (fs : FsState) (hp : cfg.preview ≠ "none") :
    getFilePreview cfg gen (.error e) id wStr hStr fs =
      ⟨(serveIconPreview fs none).map .serveFile, fs, none⟩ := by
  unfold getFilePreview
  rw [if_neg hp]

theorem getFilePreview_ok_eq (cfg : AppConfig) (gen : GenSpec) (info : WFile)
    (id wStr hStr : String) (fs : FsState) (hp : cfg.preview ≠ "none") :
    getFilePreview cfg gen (.ok info) id wStr hStr fs =
      if overLimit info (widthOf wStr) (heightOf hStr) then
        ⟨(serveIconPreview fs (some info)).map .serveFile, fs, none⟩
      else
        match previewPaths cfg id wStr hStr with
        | none => ⟨none, fs, none⟩
        | some (folder, prevP) =>
          match probe fs prevP with
          | some (ext, n) =>
            if n = 0 then ⟨(serveIconPreview fs (some info)).map .serveFile, fs, none⟩
            else ⟨some (.serveFile (prevP ++ ext)), fs, none⟩
          | none => generatePhase cfg gen info folder prevP fs := by
  unfold getFilePreview
  rw [if_neg hp]

theorem generatePhase_ok (cfg : AppConfig) (gen : GenSpec) (info : WFile)
    (folder prevP : String) (fs : FsState) (ext : String) (bytes : List Nat)
    (h : genOutcome cfg info gen = some (.ok (ext, bytes))) :
    ∃ k, generatePhase cfg gen info folder prevP fs =
      ⟨some (.serveFile (prevP ++ ext)), (fs.mkdir folder).write (prevP ++ ext) bytes,
        some k⟩ := by
  unfold genOutcome at h
  by_cases hpe : cfg.preview = ""
  · simp only [hpe, ne_eq, not_true_eq_false, if_false] at h
    by_cases hti : info.type = "image"
    · simp only [hti, if_true] at h
      rcases hgi : gen.img with e | b
      · rw [hgi] at h
        simp [Except.map] at h
      · rw [hgi] at h
        simp only [Except.map, Option.some_inj, Except.ok.injEq, Prod.mk.injEq] at h
        obtain ⟨he, hb⟩ := h
        subst he
        subst hb
        exact ⟨.localImage, by simp [generatePhase, hpe, hti, hgi]⟩
    · simp [hti] at h
  · simp only [if_neg (by simp [hpe] : ¬cfg.preview ≠ "" → False), ne_eq, hpe,
      not_false_eq_true, if_true, Option.some_inj] at h
    exact ⟨.external, by simp [generatePhase, hpe, h]⟩

theorem generatePhase_fail (cfg : AppConfig) (gen : GenSpec) (info : WFile)
    (folder prevP : String) (fs : FsState)
    (h : ∀ eb : String × List Nat, genOutcome cfg info gen ≠ some (.ok eb)) :
    ∃ k, generatePhase cfg gen info folder prevP fs =
      ⟨(serveIconPreview ((fs.mkdir folder).write (prevP ++ ".jpg") [])
          (some info)).map .serveFile,
        (fs.mkdir folder).write (prevP ++ ".jpg") [], k⟩ := by
  unfold genOutcome at h
  by_cases hpe : cfg.preview = ""
  · by_cases hti : info.type = "image"
    · rcases hgi : gen.img with e | b
      · exact ⟨some .localImage, by simp [generatePhase, hpe, hti, hgi]⟩
      · exact absurd (by simp [hpe, hti, hgi, Except.map]) (h (".jpg", b))
    · exact ⟨none, by simp [generatePhase, hpe, hti]⟩
  · rcases hge : gen.ext with e | eb
    · exact ⟨some .external, by simp [generatePhase, hpe, hge]⟩
    · exact absurd (by simp [hpe, hge]) (h eb)

/-- C1.  The claim is FALSE as stated: when the preview service is
configured as the literal string "none", `getFilePreview` answers
`format.Text(w, 500, "Previews not configured")` — an HTTP error
status — instead of an image or icon.  Concrete refutation. -/
theorem C1_counterexample :
    (getFilePreview ⟨"data", "none"⟩ ⟨.error "x", .error "x"⟩ (.error "offline")
        "a.jpg" "" "" ⟨[], []⟩).resp = some (.errorText 500 "Previews not configured") := by
  decide

/-- C1 (amended).  Whenever the preview configuration is not the
literal string "none", no run of `getFilePreview` — whatever the
metadata result, generator outcomes, parameters, or cache state —
responds with an HTTP error status (`format.Text`); every completed
response is a served file or icon. -/
theorem C1_theorem (cfg : AppConfig) (gen : GenSpec) (infoRes : Except String WFile)
    (id wStr hStr : String) (fs : FsState) (hp : cfg.preview ≠ "none")
    (c : Nat) (m : String) :
    (getFilePreview cfg gen infoRes id wStr hStr fs).resp ≠ some (.errorText c m) :=
  getFilePreview_resp_shape cfg gen infoRes id wStr hStr fs hp c m

/-- C1 witness: the amended theorem applied at a concrete request. -/
theorem C1_witness :
    (("" : String) ≠ "none") ∧
      (getFilePreview ⟨"data", ""⟩ ⟨.error "x", .error "x"⟩ (.error "offline")
          "a.jpg" "" "" ⟨[], []⟩).resp ≠ some (.errorText 500 "oops") :=
  ⟨by decide, C1_theorem ⟨"data", ""⟩ ⟨.error "x", .error "x"⟩ (.error "offline")
    "a.jpg" "" "" ⟨[], []⟩ (by decide) 500 "oops"⟩

/-- C2.  The claim is FALSE as stated: a request with `width=abc` and
one with width omitted both default the width to 214 and neither
errors, but they do NOT observe/create the same cache artifact — the
artifact filename embeds the raw query string (`a.jpg___abcx163` vs
`a.jpg___x163`), so the two runs leave different cache states. -/
theorem C2_counterexample :
    (getFilePreview ⟨"data", ""⟩ ⟨.error "x", .error "x"⟩ (.ok ⟨"a.jpg", 100, "file"⟩)
        "a.jpg" "abc" "163" ⟨[], []⟩).fs ≠
      (getFilePreview ⟨"data", ""⟩ ⟨.error "x", .error "x"⟩ (.ok ⟨"a.jpg", 100, "file"⟩)
          "a.jpg" "" "163" ⟨[], []⟩).fs := by
  decide

/-- C2 (amended).  An unparseable width such as "abc" and an omitted
width both default to 214 (the parsed dimensions agree), and neither
request surfaces an HTTP error; but the cache artifact is keyed on the
raw width string, so the two requests use distinct artifacts. -/
theorem C2_theorem :
    widthOf "abc" = 214 ∧ widthOf "" = 214 ∧
      ∀ (cfg : AppConfig) (gen : GenSpec) (infoRes : Except String WFile)
        (id hStr : String) (fs : FsState) (c : Nat) (m : String),
        cfg.preview ≠ "none" →
          (getFilePreview cfg gen infoRes id "abc" hStr fs).resp ≠
              some (.errorText c m) ∧
            (getFilePreview cfg gen infoRes id "" hStr fs).resp ≠
              some (.errorText c m) :=
  ⟨by decide, by decide, fun cfg gen infoRes id hStr fs c m hp =>
    ⟨getFilePreview_resp_shape cfg gen infoRes id "abc" hStr fs hp c m,
      getFilePreview_resp_shape cfg gen infoRes id "" hStr fs hp c m⟩⟩

/-- C2 witness: the amended theorem applied at a concrete request. -/
theorem C2_witness :
    (("" : String) ≠ "none") ∧
      (getFilePreview ⟨"data", ""⟩ ⟨.error "x", .error "x"⟩ (.ok ⟨"a.jpg", 100, "file"⟩)
          "a.jpg" "abc" "163" ⟨[], []⟩).resp ≠ some (.errorText 500 "oops") ∧
      (getFilePreview ⟨"data", ""⟩ ⟨.error "x", .error "x"⟩ (.ok ⟨"a.jpg", 100, "file"⟩)
          "a.jpg" "" "163" ⟨[], []⟩).resp ≠ some (.errorText 500 "oops") :=
  ⟨by decide,
    (C2_theorem.2.2 ⟨"data", ""⟩ ⟨.error "x", .error "x"⟩ (.ok ⟨"a.jpg", 100, "file"⟩)
      "a.jpg" "163" ⟨[], []⟩ 500 "oops" (by decide)).1,
    (C2_theorem.2.2 ⟨"data", ""⟩ ⟨.error "x", .error "x"⟩ (.ok ⟨"a.jpg", 100, "file"⟩)
      "a.jpg" "163" ⟨[], []⟩ 500 "oops" (by decide)).2⟩

/-- C3.  The claim is FALSE as stated on one edge: a 60 MB source
whose display name has no extension is policy-rejected without any
generator call and without touching the cache, but the fallback-icon
path then panics (`filepath.Ext(name)[1:]` on the empty string)
instead of serving the icon. -/
theorem C3_counterexample :
    getFilePreview ⟨"data", ""⟩ ⟨.error "x", .error "x"⟩ (.ok ⟨"README", 60000000, "file"⟩)
        "README" "100" "100" ⟨[], []⟩ = ⟨none, ⟨[], []⟩, none⟩ := by
  decide

/-- C3 (amended).  Whenever the resolved size exceeds 50 MB or a
requested dimension exceeds 2000, the handler invokes no generator and
leaves the cache state untouched, responding with the
`serveIconPreview` fallback (the icon when the display name yields an
extension; the panic modelled by `none` otherwise). -/
theorem C3_theorem (cfg : AppConfig) (gen : GenSpec) (info : WFile)
    (id wStr hStr : String) (fs : FsState) (hp : cfg.preview ≠ "none")
    (hl : overLimit info (widthOf wStr) (heightOf hStr) = true) :
    getFilePreview cfg gen (.ok info) id wStr hStr fs =
      ⟨(serveIconPreview fs (some info)).map .serveFile, fs, none⟩ := by
  unfold getFilePreview
  rw [if_neg hp]
  simp [hl]

/-- C3 witness: a 60 MB source and a width of 3000 each rejected at a
concrete request. -/
theorem C3_witness :
    (("" : String) ≠ "none") ∧
      overLimit ⟨"big.bin", 60000000, "file"⟩ (widthOf "100") (heightOf "100") = true ∧
      getFilePreview ⟨"data", ""⟩ ⟨.error "x", .error "x"⟩ (.ok ⟨"big.bin", 60000000, "file"⟩)
          "big.bin" "100" "100" ⟨[], []⟩ =
        ⟨(serveIconPreview ⟨[], []⟩ (some ⟨"big.bin", 60000000, "file"⟩)).map .serveFile,
          ⟨[], []⟩, none⟩ ∧
      overLimit ⟨"a.jpg", 100, "file"⟩ (widthOf "3000") (heightOf "100") = true ∧
      getFilePreview ⟨"data", ""⟩ ⟨.error "x", .error "x"⟩ (.ok ⟨"a.jpg", 100, "file"⟩)
          "a.jpg" "3000" "100" ⟨[], []⟩ =
        ⟨(serveIconPreview ⟨[], []⟩ (some ⟨"a.jpg", 100, "file"⟩)).map .serveFile,
          ⟨[], []⟩, none⟩ :=
  ⟨by decide, by decide,
    C3_theorem ⟨"data", ""⟩ ⟨.error "x", .error "x"⟩ ⟨"big.bin", 60000000, "file"⟩
      "big.bin" "100" "100" ⟨[], []⟩ (by decide) (by decide),
    by decide,
    C3_theorem ⟨"data", ""⟩ ⟨.error "x", .error "x"⟩ ⟨"a.jpg", 100, "file"⟩
      "a.jpg" "3000" "100" ⟨[], []⟩ (by decide) (by decide)⟩

/-- C4.  The claim is FALSE as stated on one edge: with a zero-byte
placeholder in place for the key of an extension-less file, a repeat
request indeed invokes no generator and leaves the cache untouched,
but it panics in the fallback path instead of serving the icon. -/
theorem C4_counterexample :
    getFilePreview ⟨"data", ""⟩ ⟨.error "x", .error "x"⟩ (.ok ⟨"README", 10, "file"⟩)
        "README" "100" "100" ⟨[("data/.preview/README___100x100.jpg", [])], []⟩ =
      ⟨none, ⟨[("data/.preview/README___100x100.jpg", [])], []⟩, none⟩ := by
  decide

/-- C4 (amended).  (A) Once the zero-byte `.jpg` placeholder exists at
a key's artifact path, every run of `getFilePreview` for that exact
key invokes no generator and leaves the cache state unchanged, and its
response is a `serveIconPreview` fallback (the icon when defined, the
extension panic otherwise) — the generator is never re-invoked.
(B) The placeholder is written exactly by the generation-failure path:
on a cache miss whose dispatched generation does not succeed, the
final state holds a zero-byte file at `<preview>.jpg` and the response
is the fallback for the updated state. -/
theorem C4_theorem :
    (∀ (cfg : AppConfig) (gen : GenSpec) (infoRes : Except String WFile)
      (id wStr hStr folder prevP : String) (fs : FsState),
      cfg.preview ≠ "none" →
        previewPaths cfg id wStr hStr = some (folder, prevP) →
          fs.stat (prevP ++ ".jpg") = some 0 →
            (getFilePreview cfg gen infoRes id wStr hStr fs).invoked = none ∧
              (getFilePreview cfg gen infoRes id wStr hStr fs).fs = fs ∧
              ∃ oi, (getFilePreview cfg gen infoRes id wStr hStr fs).resp =
                (serveIconPreview fs oi).map PResp.serveFile) ∧
      ∀ (cfg : AppConfig) (gen : GenSpec) (info : WFile)
        (id wStr hStr folder prevP : String) (fs : FsState),
        cfg.preview ≠ "none" →
          overLimit info (widthOf wStr) (heightOf hStr) = false →
            previewPaths cfg id wStr hStr = some (folder, prevP) →
              probe fs prevP = none →
                (∀ eb : String × List Nat, genOutcome cfg info gen ≠ some (.ok eb)) →
                  (getFilePreview cfg gen (.ok info) id wStr hStr fs).fs.stat
                      (prevP ++ ".jpg") = some 0 ∧
                    (getFilePreview cfg gen (.ok info) id wStr hStr fs).resp =
                      (serveIconPreview
                          ((getFilePreview cfg gen (.ok info) id wStr hStr fs).fs)
                          (some info)).map PResp.serveFile := by
  constructor
  · intro cfg gen infoRes id wStr hStr folder prevP fs hp hpp hstat
    rcases infoRes with e | info
    · rw [getFilePreview_err_eq cfg gen e id wStr hStr fs hp]
      exact ⟨rfl, rfl, none, rfl⟩
    · rw [getFilePreview_ok_eq cfg gen info id wStr hStr fs hp]
      by_cases hl : overLimit info (widthOf wStr) (heightOf hStr) = true
      · rw [if_pos hl]
        exact ⟨rfl, rfl, some info, rfl⟩
      · rw [if_neg hl]
        have hprobe : probe fs prevP = some (".jpg", 0) := by
          unfold probe
          rw [hstat]
        simp only [hpp, hprobe]
        exact ⟨rfl, rfl, some info, rfl⟩
  · intro cfg gen info id wStr hStr folder prevP fs hp hl hpp hmiss hgen
    have hni : ¬overLimit info (widthOf wStr) (heightOf hStr) = true := by
      simp [hl]
    have hred : getFilePreview cfg gen (.ok info) id wStr hStr fs =
        generatePhase cfg gen info folder prevP fs := by
      rw [getFilePreview_ok_eq cfg gen info id wStr hStr fs hp, if_neg hni]
      simp only [hpp, hmiss]
    obtain ⟨k, hk⟩ := generatePhase_fail cfg gen info folder prevP fs hgen
    rw [hred, hk]
    exact ⟨stat_write_self _ _ _, rfl⟩

/-- C4 witness: part A at a concrete placeholder state, part B at a
concrete cache-miss run whose generation fails (no generator applies:
local mode, non-image kind). -/
theorem C4_witness :
    ((("" : String) ≠ "none") ∧
      previewPaths ⟨"data", ""⟩ "a.jpg" "100" "100" =
        some ("data/.preview", "data/.preview/a.jpg___100x100") ∧
      FsState.stat ⟨[("data/.preview/a.jpg___100x100.jpg", [])], []⟩
          ("data/.preview/a.jpg___100x100" ++ ".jpg") = some 0 ∧
      (getFilePreview ⟨"data", ""⟩ ⟨.error "x", .error "x"⟩ (.ok ⟨"a.jpg", 100, "file"⟩)
          "a.jpg" "100" "100"
          ⟨[("data/.preview/a.jpg___100x100.jpg", [])], []⟩).invoked = none) ∧
      (getFilePreview ⟨"data", ""⟩ ⟨.error "x", .error "x"⟩ (.ok ⟨"b.txt", 100, "file"⟩)
          "b.txt" "100" "100" ⟨[], []⟩).fs.stat
        ("data/.preview/b.txt___100x100" ++ ".jpg") = some 0 :=
  ⟨⟨by decide, by decide, by decide,
    (C4_theorem.1 ⟨"data", ""⟩ ⟨.error "x", .error "x"⟩ (.ok ⟨"a.jpg", 100, "file"⟩)
      "a.jpg" "100" "100" "data/.preview" "data/.preview/a.jpg___100x100"
      ⟨[("data/.preview/a.jpg___100x100.jpg", [])], []⟩ (by decide) (by decide)
      (by decide)).1⟩,
    (C4_theorem.2 ⟨"data", ""⟩ ⟨.error "x", .error "x"⟩ ⟨"b.txt", 100, "file"⟩
      "b.txt" "100" "100" "data/.preview" "data/.preview/b.txt___100x100" ⟨[], []⟩
      (by decide) (by decide) (by decide) (by decide)
      (fun eb => by simp [genOutcome])).1⟩

/-- C5.  Confirmed: on a cache miss within the ceilings whose
generation succeeds with a non-empty artifact (`.jpg` or `.png`, the
only extensions the generators produce), the first run serves the
freshly written artifact and persists exactly its bytes, and a repeat
run for the same key probes `.jpg` then `.png`, serves the identical
artifact path, invokes no generator, and leaves the state untouched —
byte-identical artifacts across repeated requests. -/
theorem C5_theorem (cfg : AppConfig) (gen : GenSpec) (info : WFile)
    (id wStr hStr folder prevP ext : String) (bytes : List Nat) (fs : FsState)
    (hp : cfg.preview ≠ "none")
    (hl : overLimit info (widthOf wStr) (heightOf hStr) = false)
    (hpp : previewPaths cfg id wStr hStr = some (folder, prevP))
    (hmiss : probe fs prevP = none)
    (hgen : genOutcome cfg info gen = some (.ok (ext, bytes)))
    (hext : ext = ".jpg" ∨ ext = ".png")
    (hb : bytes ≠ []) :
    (getFilePreview cfg gen (.ok info) id wStr hStr fs).resp =
        some (.serveFile (prevP ++ ext)) ∧
      (getFilePreview cfg gen (.ok info) id wStr hStr fs).fs.stat (prevP ++ ext) =
        some bytes.length ∧
      getFilePreview cfg gen (.ok info) id wStr hStr
          ((getFilePreview cfg gen (.ok info) id wStr hStr fs).fs) =
        ⟨some (.serveFile (prevP ++ ext)),
          (getFilePreview cfg gen (.ok info) id wStr hStr fs).fs, none⟩ := by
  have hni : ¬overLimit info (widthOf wStr) (heightOf hStr) = true := by
    simp [hl]
  have hred : getFilePreview cfg gen (.ok info) id wStr hStr fs =
      generatePhase cfg gen info folder prevP fs := by
    rw [getFilePreview_ok_eq cfg gen info id wStr hStr fs hp, if_neg hni]
    simp only [hpp, hmiss]
  obtain ⟨k, hk⟩ := generatePhase_ok cfg gen info folder prevP fs ext bytes hgen
  have hlen : bytes.length ≠ 0 := by
    simpa [List.length_eq_zero] using hb
  have hfs1 : (getFilePreview cfg gen (.ok info) id wStr hStr fs).fs =
      (fs.mkdir folder).write (prevP ++ ext) bytes := by
    rw [hred, hk]
  have hprobe1 : probe ((fs.mkdir folder).write (prevP ++ ext) bytes) prevP =
      some (ext, bytes.length) := by
    rcases hext with he | he <;> subst he
    · unfold probe
      rw [stat_write_self]
    · unfold probe
      rw [stat_write_other _ _ _ _
          (string_append_right_ne prevP ".jpg" ".png" (by decide)),
        stat_mkdir, (probe_none_stats fs prevP hmiss).1, stat_write_self]
  refine ⟨by rw [hred, hk], by rw [hfs1]; exact stat_write_self _ _ _, ?_⟩
  rw [hfs1,
    getFilePreview_ok_eq cfg gen info id wStr hStr
      ((fs.mkdir folder).write (prevP ++ ext) bytes) hp,
    if_neg hni]
  simp only [hpp, hprobe1]
  rw [if_neg hlen]

/-- C6.  Confirmed: `getIconURL` first strips every character outside
`[A-Za-z0-9.]`, returns either the sanitized lookup path under
`icons/<size>/` or the generic `icons/<size>/file.svg` when the lookup
is absent, keeps only sanitized characters (in particular no `/`, so
the name cannot escape the icons directory), has no error path, and
maps the traversal attempt `"../../etc/passwd"` to the generic
fallback. -/
theorem C6_theorem :
    (∀ (name size : String) (fs : FsState),
      getIconURL name size fs = "icons/" ++ size ++ "/" ++ sanitizeIcon name ∨
        getIconURL name size fs = "icons/" ++ size ++ "/file.svg") ∧
      (∀ (name size : String) (fs : FsState),
        fs.stat ("icons/" ++ size ++ "/" ++ sanitizeIcon name) = none →
          getIconURL name size fs = "icons/" ++ size ++ "/file.svg") ∧
      (∀ name : String, (sanitizeIcon name).data = name.data.filter iconAllowed) ∧
      (∀ name : String, ∀ c ∈ (sanitizeIcon name).data, iconAllowed c = true) ∧
      (∀ name : String, '/' ∉ (sanitizeIcon name).data) ∧
      getIconURL "../../etc/passwd" "big" ⟨[], []⟩ = "icons/big/file.svg" ∧
      getIconURL ("../../etc/passwd" ++ ".svg") "big" ⟨[], []⟩ = "icons/big/file.svg" :=
  ⟨getIconURL_shape, getIconURL_absent, fun _ => rfl, sanitizeIcon_allowed,
    sanitizeIcon_no_slash, by decide, by decide⟩

/-- C6 witness: the hypothesis-bearing conjuncts applied at concrete
inputs. -/
theorem C6_witness :
    FsState.stat ⟨[], []⟩ ("icons/" ++ "big" ++ "/" ++ sanitizeIcon "x.svg") = none ∧
      getIconURL "x.svg" "big" ⟨[], []⟩ = "icons/" ++ "big" ++ "/file.svg" ∧
      'p' ∈ (sanitizeIcon "passwd").data ∧ iconAllowed 'p' = true :=
  ⟨by decide, C6_theorem.2.1 "x.svg" "big" ⟨[], []⟩ (by decide), by decide,
    C6_theorem.2.2.2.1 "passwd" 'p' (by decide)⟩

theorem getExternalPreview_ok_eq (res : HttpResp) (createOk : Bool)
    (copyFail : Option (List Nat)) (prevP : String) (fs : FsState) :
    getExternalPreview (.ok res) createOk copyFail prevP fs =
      if res.status ≠ 200 then (.error "preview service status", fs)
      else
        let ext := if res.contentType = "image/png" then ".png" else ".jpg"
        if createOk then
          match copyFail with
          | some leftover => (.error "copy failed", fs.write (prevP ++ ext) leftover)
          | none => (.ok ext, fs.write (prevP ++ ext) res.body)
        else (.error "create failed", fs) := rfl

theorem pollLoop_eq_specFrom (results : Nat → Except String WFile) (t0 : Nat)
    (fs : FsState) :
    ∀ n k, 102 - k = n → k ≤ 101 →
      pollLoop results (t0 + 10000) (t0 + 100 * k) k fs = (specFrom results k, fs) := by
  intro n
  induction n with
  | zero =>
    intro k hn hk
    omega
  | succ n ih =>
    intro k hn hk
    rcases hr : results k with e | m
    · rw [pollLoop, specFrom]
      simp only [hr]
      by_cases hgt : t0 + 100 * k > t0 + 10000
      · rw [dif_pos hgt, if_pos (show k ≥ 101 by omega)]
      · rw [dif_neg hgt, if_neg (show ¬k ≥ 101 by omega)]
        rw [show t0 + 100 * k + 100 = t0 + 100 * (k + 1) by ring]
        exact ih (k + 1) (by omega) (by omega)
    · rw [pollLoop, specFrom]
      simp [hr]

theorem resolveInfo_eq (results : Nat → Except String WFile) (t0 : Nat) (fs : FsState) :
    resolveInfo results t0 fs = (specFrom results 0, fs) := by
  have h := pollLoop_eq_specFrom results t0 fs 102 0 (by omega) (by omega)
  simpa [resolveInfo] using h

theorem specFrom_ok (results : Nat → Except String WFile) :
    ∀ d j k m, k - j = d → j ≤ k → k ≤ 101 →
      (∀ i, i < k → exIsError (results i) = true) → results k = .ok m →
        specFrom results j = .ok m := by
  intro d
  induction d with
  | zero =>
    intro j k m hd hjk hk hfail hok
    have hjj : j = k := by omega
    subst hjj
    rw [specFrom]
    simp only [hok]
  | succ d ih =>
    intro j k m hd hjk hk hfail hok
    have hjk2 : j < k := by omega
    have hj := hfail j hjk2
    rcases hr : results j with e | m2
    · rw [specFrom]
      simp only [hr]
      rw [if_neg (show ¬j ≥ 101 by omega)]
      exact ih (j + 1) k m (by omega) (by omega) hk hfail hok
    · rw [hr] at hj
      simp [exIsError] at hj

theorem specFrom_err (results : Nat → Except String WFile)
    (hfail : ∀ i, i ≤ 101 → exIsError (results i) = true) :
    ∀ d j, 101 - j = d → j ≤ 101 → specFrom results j = results 101 := by
  intro d
  induction d with
  | zero =>
    intro j hd hj
    have hjj : j = 101 := by omega
    subst hjj
    rcases hr : results 101 with e | m
    · rw [specFrom]
      simp only [hr]
      rw [if_pos (show (101 : Nat) ≥ 101 by omega)]
    · have hc := hfail 101 (by omega)
      rw [hr] at hc
      simp [exIsError] at hc
  | succ d ih =>
    intro j hd hj
    rcases hr : results j with e | m
    · rw [specFrom]
      simp only [hr]
      rw [if_neg (show ¬j ≥ 101 by omega)]
      exact ih (j + 1) (by omega) (by omega)
    · have hc := hfail j (by omega)
      rw [hr] at hc
      simp [exIsError] at hc

/-- C7.  Confirmed: the metadata poll retries at a fixed 100 ms step
(attempt k at time `t0 + 100*k`) until an attempt succeeds — returning
that metadata — or the first attempt past the 10-second deadline
(index 101) fails, in which case the last failure is returned; the
filesystem state is passed through untouched (no writes). -/
theorem C7_theorem :
    (∀ (results : Nat → Except String WFile) (t0 : Nat) (fs : FsState) (k : Nat)
      (m : WFile), k ≤ 101 → (∀ j, j < k → exIsError (results j) = true) →
        results k = .ok m → (resolveInfo results t0 fs).1 = .ok m) ∧
      (∀ (results : Nat → Except String WFile) (t0 : Nat) (fs : FsState),
        (∀ k, k ≤ 101 → exIsError (results k) = true) →
          (resolveInfo results t0 fs).1 = results 101 ∧
            exIsError (resolveInfo results t0 fs).1 = true) ∧
      ∀ (results : Nat → Except String WFile) (t0 : Nat) (fs : FsState),
        (resolveInfo results t0 fs).2 = fs := by
  refine ⟨?_, ?_, ?_⟩
  · intro results t0 fs k m hk hfail hok
    rw [resolveInfo_eq]
    exact specFrom_ok results k 0 k m (by omega) (by omega) hk hfail hok
  · intro results t0 fs hfail
    have hlast : specFrom results 0 = results 101 :=
      specFrom_err results hfail 101 0 (by omega) (by omega)
    refine ⟨by rw [resolveInfo_eq]; exact hlast, ?_⟩
    rw [resolveInfo_eq]
    show exIsError (specFrom results 0) = true
    rw [hlast]
    exact hfail 101 (by omega)
  · intro results t0 fs
    rw [resolveInfo_eq]

/-- C7 witness: a first failure then a success at attempt 1, and the
all-fail case, each at concrete inputs. -/
theorem C7_witness :
    (1 ≤ 101 ∧
      (fun k => if k = 1 then Except.ok (⟨"a.jpg", 1, "file"⟩ : WFile)
        else Except.error "e") 1 = .ok ⟨"a.jpg", 1, "file"⟩ ∧
      (resolveInfo (fun k => if k = 1 then .ok ⟨"a.jpg", 1, "file"⟩ else .error "e")
          0 ⟨[], []⟩).1 = .ok ⟨"a.jpg", 1, "file"⟩) ∧
      (resolveInfo (fun _ => .error "gone") 7 ⟨[], []⟩).1 = .error "gone" ∧
      (resolveInfo (fun _ => .error "gone") 7 ⟨[], []⟩).2 = ⟨[], []⟩ :=
  ⟨⟨by decide, by decide,
    C7_theorem.1 (fun k => if k = 1 then .ok ⟨"a.jpg", 1, "file"⟩ else .error "e")
      0 ⟨[], []⟩ 1 ⟨"a.jpg", 1, "file"⟩ (by decide)
      (fun j hj => by
        have hj0 : j = 0 := Nat.lt_one_iff.mp hj
        subst hj0
        decide)
      (by decide)⟩,
    (C7_theorem.2.1 (fun _ => .error "gone") 7 ⟨[], []⟩
      (fun k _ => by simp [exIsError])).1,
    C7_theorem.2.2 (fun _ => .error "gone") 7 ⟨[], []⟩⟩

/-- C8.  Confirmed: the external-proxy generation fails exactly when
the HTTP call errors, the response status is not 200, or persisting
fails (`os.Create` or the body copy); on success the extension is
`.png` for declared content type `image/png` and `.jpg` otherwise,
and the persisted artifact holds exactly the response body. -/
theorem C8_theorem :
    (∀ (e : String) (createOk : Bool) (copyFail : Option (List Nat))
      (prevP : String) (fs : FsState),
      getExternalPreview (.error e) createOk copyFail prevP fs =
        (.error ("preview service " ++ e), fs)) ∧
      (∀ (res : HttpResp) (createOk : Bool) (copyFail : Option (List Nat))
        (prevP : String) (fs : FsState),
        res.status ≠ 200 →
          getExternalPreview (.ok res) createOk copyFail prevP fs =
            (.error "preview service status", fs)) ∧
      (∀ (res : HttpResp) (copyFail : Option (List Nat)) (prevP : String)
        (fs : FsState),
        res.status = 200 →
          getExternalPreview (.ok res) false copyFail prevP fs =
            (.error "create failed", fs)) ∧
      (∀ (res : HttpResp) (leftover : List Nat) (prevP : String) (fs : FsState),
        res.status = 200 →
          (getExternalPreview (.ok res) true (some leftover) prevP fs).1 =
            .error "copy failed") ∧
      ∀ (res : HttpResp) (prevP : String) (fs : FsState),
        res.status = 200 →
          getExternalPreview (.ok res) true none prevP fs =
            (.ok (if res.contentType = "image/png" then ".png" else ".jpg"),
              fs.write
                (prevP ++ (if res.contentType = "image/png" then ".png" else ".jpg"))
                res.body) ∧
            (getExternalPreview (.ok res) true none prevP fs).2.stat
              (prevP ++ (if res.contentType = "image/png" then ".png" else ".jpg")) =
              some res.body.length := by
  refine ⟨fun e createOk copyFail prevP fs => rfl, ?_, ?_, ?_, ?_⟩
  · intro res createOk copyFail prevP fs h
    rw [getExternalPreview_ok_eq, if_pos h]
  · intro res copyFail prevP fs h
    rw [getExternalPreview_ok_eq, if_neg (show ¬res.status ≠ 200 by simp [h])]
    rfl
  · intro res leftover prevP fs h
    rw [getExternalPreview_ok_eq, if_neg (show ¬res.status ≠ 200 by simp [h])]
    rfl
  · intro res prevP fs h
    have hu : getExternalPreview (.ok res) true none prevP fs =
        (.ok (if res.contentType = "image/png" then ".png" else ".jpg"),
          fs.write
            (prevP ++ (if res.contentType = "image/png" then ".png" else ".jpg"))
            res.body) := by
      rw [getExternalPreview_ok_eq, if_neg (show ¬res.status ≠ 200 by simp [h])]
      rfl
    refine ⟨hu, ?_⟩
    rw [hu]
    exact stat_write_self _ _ _

/-- C8 witness: a non-success status and a successful `image/png`
retrieval at concrete inputs. -/
theorem C8_witness :
    ((404 : Nat) ≠ 200 ∧
      getExternalPreview (.ok ⟨404, "image/png", [1]⟩) true none "p" ⟨[], []⟩ =
        (.error "preview service status", ⟨[], []⟩)) ∧
      (200 : Nat) = 200 ∧
      getExternalPreview (.ok ⟨200, "image/png", [1, 2]⟩) true none "p" ⟨[], []⟩ =
        (.ok (if ("image/png" : String) = "image/png" then ".png" else ".jpg"),
          FsState.write ⟨[], []⟩
            ("p" ++ (if ("image/png" : String) = "image/png" then ".png" else ".jpg"))
            [1, 2]) :=
  ⟨⟨by decide,
    C8_theorem.2.1 ⟨404, "image/png", [1]⟩ true none "p" ⟨[], []⟩ (by decide)⟩,
    by decide,
    (C8_theorem.2.2.2.2 ⟨200, "image/png", [1, 2]⟩ "p" ⟨[], []⟩ (by decide)).1⟩

/-- C9.  Confirmed: when the resolved file's display name contains no
dot, `filepath.Ext(info.Name)` is empty and the `[1:]` slice panics —
`serveIconPreview` is modelled as `none` — so the fallback path serves
no icon; it is total only for names containing a dot, and a whole
policy-rejected request for such a file panics instead of responding. -/
theorem C9_theorem :
    (∀ (fs : FsState) (f : WFile),
      '.' ∉ f.name.data → serveIconPreview fs (some f) = none) ∧
      (∀ (fs : FsState) (f : WFile),
        serveIconPreview fs (some f) ≠ none → '.' ∈ f.name.data) ∧
      ∀ (cfg : AppConfig) (gen : GenSpec) (f : WFile) (id wStr hStr : String)
        (fs : FsState),
        cfg.preview ≠ "none" → '.' ∉ f.name.data →
          overLimit f (widthOf wStr) (heightOf hStr) = true →
            (getFilePreview cfg gen (.ok f) id wStr hStr fs).resp = none := by
  refine ⟨?_, ?_, ?_⟩
  · intro fs f h
    simp [serveIconPreview, goExt_eq_empty _ h]
  · intro fs f h
    by_contra hd
    exact h (by simp [serveIconPreview, goExt_eq_empty _ hd])
  · intro cfg gen f id wStr hStr fs hp hd hl
    rw [getFilePreview_ok_eq cfg gen f id wStr hStr fs hp, if_pos hl]
    simp [serveIconPreview, goExt_eq_empty _ hd]

/-- C9 witness: the dotless name "README" panics both in the fallback
helper and in a whole rejected request. -/
theorem C9_witness :
    ('.' ∉ ("README" : String).data ∧
      serveIconPreview ⟨[], []⟩ (some ⟨"README", 10, "file"⟩) = none) ∧
      overLimit ⟨"README", 60000000, "file"⟩ (widthOf "100") (heightOf "100") = true ∧
      (getFilePreview ⟨"data", ""⟩ ⟨.error "x", .error "x"⟩
          (.ok ⟨"README", 60000000, "file"⟩) "README" "100" "100" ⟨[], []⟩).resp =
        none :=
  ⟨⟨by decide, C9_theorem.1 ⟨[], []⟩ ⟨"README", 10, "file"⟩ (by decide)⟩, by decide,
    C9_theorem.2.2 ⟨"data", ""⟩ ⟨.error "x", .error "x"⟩ ⟨"README", 60000000, "file"⟩
      "README" "100" "100" ⟨[], []⟩ (by decide) (by decide) (by decide)⟩

/-- C10.  Confirmed: `getIconURL` sanitizes only its name argument —
the returned path embeds the size string verbatim in
`icons/<size>/...` — so a size containing `..` (reachable through the
`GET /icons/{size}/{name}` route, which passes both URL parameters
straight through) yields a path whose normalization escapes the icons
directory (leading `..` segment). -/
theorem C10_theorem :
    (∀ (name size : String) (fs : FsState),
      getIconURL name size fs = "icons/" ++ size ++ "/" ++ sanitizeIcon name ∨
        getIconURL name size fs = "icons/" ++ size ++ "/file.svg") ∧
      getIconURL "file.svg" "../.." ⟨[], []⟩ = "icons/../../file.svg" ∧
      normSegs (getIconURL "file.svg" "../.." ⟨[], []⟩) = ["..", "file.svg"] ∧
      (normSegs (getIconURL "file.svg" "../.." ⟨[], []⟩)).head? = some ".." :=
  ⟨getIconURL_shape, by decide, by decide, by decide⟩

/-- C5 witness: concrete first-success then repeat request (local
image generation writing `.jpg`). -/
theorem C5_witness :
    ((("data" : String), ("" : String)) = (("data" : String), ("" : String)) ∧
      overLimit ⟨"a.jpg", 100, "image"⟩ (widthOf "100") (heightOf "100") = false ∧
      probe ⟨[], []⟩ "data/.preview/a.jpg___100x100" = none ∧
      genOutcome ⟨"data", ""⟩ ⟨"a.jpg", 100, "image"⟩ ⟨.error "x", .ok [7, 8]⟩ =
        some (.ok (".jpg", [7, 8]))) ∧
      getFilePreview ⟨"data", ""⟩ ⟨.error "x", .ok [7, 8]⟩ (.ok ⟨"a.jpg", 100, "image"⟩)
          "a.jpg" "100" "100"
          ((getFilePreview ⟨"data", ""⟩ ⟨.error "x", .ok [7, 8]⟩
              (.ok ⟨"a.jpg", 100, "image"⟩) "a.jpg" "100" "100" ⟨[], []⟩).fs) =
        ⟨some (.serveFile ("data/.preview/a.jpg___100x100" ++ ".jpg")),
          (getFilePreview ⟨"data", ""⟩ ⟨.error "x", .ok [7, 8]⟩
              (.ok ⟨"a.jpg", 100, "image"⟩) "a.jpg" "100" "100" ⟨[], []⟩).fs, none⟩ :=
  ⟨⟨rfl, by decide, by decide, by decide⟩,
    ( C5_theorem
      ⟨"data", ""⟩ ⟨.error "x", .ok [7, 8]⟩ ⟨"a.jpg", 100, "image"⟩
      "a.jpg" "100" "100" "data/.preview" "data/.preview/a.jpg___100x100" ".jpg"
      [7, 8] ⟨[], []⟩ (by decide) (by decide) (by decide) (by decide) (by decide)
      (Or.inl rfl) (by decide)).2.2⟩
